import Mathlib

/-!
Verification development for the `carsim` library (cmdr2/car-sim).

The Python sources are shallowly embedded over `ℚ`.  Real-valued library
functions that return irrational results (`np.power` with fractional
exponents, `np.sqrt`, `np.exp`, `np.tan`, `np.cos`, `np.sin`, `np.arctan2`)
are taken as parameters of the embedded functions, constrained only by
properties the corresponding real functions provably have (e.g.
`|sin x| ≤ 1`); everything the claims depend on is exact rational
arithmetic.  For the car integrator, two embeddings are used: an exact
rational one, and a small IEEE-754-style model (`F` below) that captures
division by zero producing signed infinities and NaN propagation, which is
what the steering claims are about.
-/

namespace CarSim

/-! ## util.py -/

/-- Helper for `interpolate_curve`: walk the control points.  `x0, y0` is the
most recent control point already passed; on the segment `[x0, x1]` the value
is the linear interpolant, and past the last point the last `y` is returned
(the clamping behaviour of `np.interp`). -/
def interpGo (x : ℚ) : ℚ → ℚ → List (ℚ × ℚ) → ℚ
  | _, y0, [] => y0
  | x0, y0, (x1, y1) :: rest =>
    if x ≤ x1 then y0 + (y1 - y0) * (x - x0) / (x1 - x0)
    else interpGo x x1 y1 rest

/-- The function `interpolate_curve(x, points)` from `src/carsim/util.py`, which is
`np.interp(x, xs, ys)`: piecewise-linear interpolation over control points
with strictly increasing x, *clamping* to the endpoint y values outside the
control-point range (NumPy's documented behaviour for `np.interp`). -/
def interpolate_curve (x : ℚ) (points : List (ℚ × ℚ)) : ℚ :=
  match points with
  | [] => 0
  | (x0, y0) :: rest => if x ≤ x0 then y0 else interpGo x x0 y0 rest

/-- The value `Σ values·weights / Σ weights` computed by `weighted_sum`. -/
def weightedSumVal (values weights : List ℚ) : ℚ :=
  (List.zipWith (· * ·) values weights).sum / weights.sum

/-- The function `weighted_sum(values, weights)` from `src/carsim/util.py` (with
`print_labels=False`).  NumPy raises a broadcast error when the two arrays
have different (non-unit) lengths, modelled by `none`; for equal lengths it
always returns the value `Σ v·w / Σ w` — division by a zero total weight
produces an IEEE infinity/NaN *value* plus a runtime warning, never an
exception.  (The length-1 broadcast special case of NumPy is not modelled;
every call in the repository uses equal lengths.) -/
def weighted_sum (values weights : List ℚ) : Option ℚ :=
  if values.length = weights.length then some (weightedSumVal values weights)
  else none

/-! ## tire/grip.py -/

/-- The irrational real operations used by `tire/grip.py`, kept abstract:
`powf a b` stands for `np.power(a, b)` (fractional exponents only — integer
powers are embedded exactly), `sqrtf` for `np.sqrt`, `expf` for `np.exp`.
Theorems constrain them only by properties the real functions have. -/
structure Flt where
  powf : ℚ → ℚ → ℚ
  sqrtf : ℚ → ℚ
  expf : ℚ → ℚ

/-- NumPy `np.sign` on rationals. -/
def sgnQ (x : ℚ) : ℚ := if x < 0 then -1 else if x = 0 then 0 else 1

/-- NumPy `np.clip(x, lo, hi)`. -/
def clip (x lo hi : ℚ) : ℚ := min (max x lo) hi

def OPTIMAL_CAMBER_FOR_REFERENCE_TIRE : ℚ := -7/2
def REFERENCE_TIRE_WIDTH : ℚ := 305
def REFERENCE_OPTIMAL_PRESSURE : ℚ := 28

def REFERENCE_HARDNESS_TO_TEMP_LOW_CURVE : List (ℚ × ℚ) :=
  [(0, 45), (2/5, 55), (1/2, 75), (3/5, 80), (7/10, 80), (4/5, 85), (9/10, 85), (1, 85)]

def REFERENCE_HARDNESS_TO_TEMP_HIGH_CURVE : List (ℚ × ℚ) :=
  [(0, 65), (2/5, 75), (1/2, 105), (3/5, 105), (7/10, 110), (4/5, 115), (9/10, 120), (1, 120)]

def REFERENCE_TIRE_WEAR_TO_GRIP_CURVE : List (ℚ × ℚ) :=
  [(0, 1), (1/10, 19/20), (1/5, 9/10), (3/10, 41/50), (2/5, 3/4), (1/2, 3/5),
   (3/5, 1/2), (7/10, 1/5), (4/5, 2/25), (9/10, 3/100), (1, 0)]

def FRICTION_ASPHALT : ℚ := 1
def FRICTION_CONCRETE : ℚ := 11/10
def FRICTION_DIRT : ℚ := 7/10
def FRICTION_GRAVEL : ℚ := 3/5
def FRICTION_GRASS : ℚ := 1/2
def FRICTION_ICE : ℚ := 1/10

def SURFACE_FRICTION_EFFECT : ℚ := 1/2
def TIRE_HARDNESS_EFFECT : ℚ := 1
def TIRE_PRESSURE_EFFECT : ℚ := 3/10
def TIRE_WIDTH_EFFECT : ℚ := 1/5
def CAMBER_EFFECT : ℚ := 1/5
def TEMPERATURE_EFFECT : ℚ := 1/2
def TIRE_WEAR_EFFECT : ℚ := 1

/-- The function `material_friction` from `tire/grip.py`, scalar call path.  The boolean
road-type masks are mutually exclusive for a scalar `road_type`, so the
masked assignments into `np.zeros_like(...)` collapse to a nested
conditional, and a road type matching no mask leaves the zero in place. -/
def material_friction (p : Flt) (tire_material_coefficient tread_amount : ℚ)
    (road_type : String) (road_condition : ℚ) : ℚ :=
  let road_friction : ℚ :=
    if road_type = "asphalt" then FRICTION_ASPHALT
    else if road_type = "concrete" then FRICTION_CONCRETE
    else if road_type = "dirt" then FRICTION_DIRT
    else if road_type = "gravel" then FRICTION_GRAVEL
    else if road_type = "grass" then FRICTION_GRASS
    else if road_type = "ice" then FRICTION_ICE
    else 0
  let road_friction := road_friction * p.powf road_condition (3/10)
  let x := road_condition - 1/2
  let asphalt_concrete_tread_effect :=
    1 - 1 * p.powf tread_amount (1/2) * sgnQ x * p.powf |x| (1/2)
  let dirt_gravel_grass_tread_effect := 1 + 1/2 * tread_amount
  let ice_tread_effect : ℚ := 1
  let tread_effect :=
    (if road_type = "asphalt" ∨ road_type = "concrete" then (1:ℚ) else 0)
        * asphalt_concrete_tread_effect
      + (if road_type = "dirt" ∨ road_type = "gravel" ∨ road_type = "grass" then (1:ℚ) else 0)
        * dirt_gravel_grass_tread_effect
      + (if road_type = "ice" then (1:ℚ) else 0) * ice_tread_effect
  tire_material_coefficient * road_friction * tread_effect

/-- The function `tire_hardness_effect` from `tire/grip.py`: `np.sqrt(1 - hardness)`. -/
def tire_hardness_effect (p : Flt) (tire_hardness_factor : ℚ) : ℚ :=
  p.sqrtf (1 - tire_hardness_factor)

/-- The function `tire_pressure_effect` from `tire/grip.py`: `(28/pressure)^0.7`. -/
def tire_pressure_effect (p : Flt) (tire_pressure : ℚ) : ℚ :=
  p.powf (REFERENCE_OPTIMAL_PRESSURE / tire_pressure) (7/10)

/-- The function `tire_width_effect` from `tire/grip.py`. -/
def tire_width_effect (tire_width : ℚ) : ℚ :=
  1 + (tire_width - REFERENCE_TIRE_WIDTH) / (2 * REFERENCE_TIRE_WIDTH)

/-- The function `camber_effect` from `tire/grip.py`: `exp(-|camber - optimal|/5)`. -/
def camber_effect (p : Flt) (camber tire_width : ℚ) : ℚ :=
  let optimal_camber_adjustment := 1/20 * (tire_width - REFERENCE_TIRE_WIDTH) / REFERENCE_TIRE_WIDTH
  let optimal_camber := OPTIMAL_CAMBER_FOR_REFERENCE_TIRE + optimal_camber_adjustment
  p.expf (-|camber - optimal_camber| / 5)

/-- The function `temperature_effect` from `tire/grip.py`, scalar call path.  The three
temperature-regime masks are exclusive and exhaustive; `np.ones_like(...)`
in the optimal branch evaluates to the scalar 1.  All arithmetic here
(integer cube, clip, the linear interpolations) is exact over `ℚ`, and the
lookup curves keep `low ≥ 45 > 0` and `high > low`, so no division by zero
occurs in the Python either. -/
def temperature_effect (tire_temperature tire_hardness_factor : ℚ) : ℚ :=
  let low_optimal := interpolate_curve tire_hardness_factor REFERENCE_HARDNESS_TO_TEMP_LOW_CURVE
  let high_optimal := interpolate_curve tire_hardness_factor REFERENCE_HARDNESS_TO_TEMP_HIGH_CURVE
  let cold_temp_mask : ℚ := if tire_temperature < low_optimal then 1 else 0
  let optimal_temp_mask : ℚ :=
    if low_optimal ≤ tire_temperature ∧ tire_temperature ≤ high_optimal then 1 else 0
  let overheated_temp_mask : ℚ := if high_optimal < tire_temperature then 1 else 0
  let cold_temp_grip := (tire_temperature / low_optimal) ^ 3
  let overheating_factor := (tire_temperature - high_optimal) / (high_optimal - low_optimal)
  let overheated_temp_grip := clip (1 - overheating_factor) 0 1 ^ 3
  cold_temp_mask * cold_temp_grip + optimal_temp_mask * 1
    + overheated_temp_mask * overheated_temp_grip

/-- The function `tire_wear_effect` from `tire/grip.py`. -/
def tire_wear_effect (tire_wear : ℚ) : ℚ :=
  interpolate_curve (clip tire_wear 0 1) REFERENCE_TIRE_WEAR_TO_GRIP_CURVE

/-- The function `get_tire_grip` from `tire/grip.py`, scalar call path.  The six factor
lists have equal length 6, so the `weighted_sum` call always returns its
value; `getD 0` extracts it (the default is never taken). -/
def get_tire_grip (p : Flt) (tire_material_coeff tread_amount : ℚ) (road_type : String)
    (road_condition tire_width tire_hardness_factor tire_pressure tire_temperature
      tire_wear camber : ℚ) : ℚ :=
  let base_friction := material_friction p tire_material_coeff tread_amount road_type road_condition
  let hardness_factor := tire_hardness_effect p tire_hardness_factor
  let pressure_factor := tire_pressure_effect p tire_pressure
  let width_factor := tire_width_effect tire_width
  let camber_factor := camber_effect p camber tire_width
  let temperature_factor := temperature_effect tire_temperature tire_hardness_factor
  let tire_wear_factor := tire_wear_effect tire_wear
  let grip_adjustment :=
    (weighted_sum
      [hardness_factor, pressure_factor, width_factor, camber_factor, temperature_factor,
        tire_wear_factor]
      [TIRE_HARDNESS_EFFECT, TIRE_PRESSURE_EFFECT, TIRE_WIDTH_EFFECT, CAMBER_EFFECT,
        TEMPERATURE_EFFECT, TIRE_WEAR_EFFECT]).getD 0
  base_friction * grip_adjustment

/-! ## tire/force.py -/

/-- Vectors of 3 rationals (the force code works on `np.array`s of length 3,
as required by `np.cross`). -/
abbrev Vec3 := ℚ × ℚ × ℚ

def vadd (a b : Vec3) : Vec3 := (a.1 + b.1, a.2.1 + b.2.1, a.2.2 + b.2.2)

def vsmul (c : ℚ) (a : Vec3) : Vec3 := (c * a.1, c * a.2.1, c * a.2.2)

def dot (a b : Vec3) : ℚ := a.1 * b.1 + a.2.1 * b.2.1 + a.2.2 * b.2.2

/-- NumPy `np.cross` for 3-vectors. -/
def cross (a b : Vec3) : Vec3 :=
  (a.2.1 * b.2.2 - a.2.2 * b.2.1, a.2.2 * b.1 - a.1 * b.2.2, a.1 * b.2.1 - a.2.1 * b.1)

/-- Squared Euclidean norm.  `np.linalg.norm u ≤ np.linalg.norm v` is encoded
as `normSq u ≤ normSq v` (equivalent, both norms being nonnegative). -/
def normSq (a : Vec3) : ℚ := dot a a

/-- Rational square root: exact (equal to the real square root) whenever the
argument is the square of a rational, which is the only case the theorems
below rely on; elsewhere it is a stand-in for the irrational real value. -/
def qsqrt (q : ℚ) : ℚ := (Nat.sqrt q.num.toNat : ℚ) / (Nat.sqrt q.den : ℚ)

def WHEELSPIN_FACTOR : ℚ := 1/100
def WHEELSPIN_TORQUE_SENSITIVITY : ℕ := 2
def LATERAL_FRICTION_MULTIPLIER : ℚ := 2
def VERTICAL_LOAD_TO_GRIP_FACTOR : ℚ := 3/5
def TIRE_DEFORMATION_FACTOR : ℚ := 1/10

/-- The function `get_max_allowed_traction_force_magnitude` from `tire/force.py`:
`grip * ‖load‖^0.6`. -/
def get_max_allowed_traction_force_magnitude (p : Flt) (effective_grip : ℚ)
    (vertical_load : Vec3) : ℚ :=
  effective_grip * p.powf (qsqrt (normSq vertical_load)) VERTICAL_LOAD_TO_GRIP_FACTOR

/-- The deformation-absorption factor `1 - 0.1 * radius / stiffness`. -/
def deformation_absorption (tire_radius tire_stiffness : ℚ) : ℚ :=
  1 - TIRE_DEFORMATION_FACTOR * tire_radius / tire_stiffness

/-- The engine force `-forward * (torque/radius) * absorption` of
`get_reaction_force_on_axle`. -/
def engine_force (engine_torque tire_radius tire_stiffness : ℚ)
    (tire_forward_direction : Vec3) : Vec3 :=
  vsmul (-(engine_torque / tire_radius) * deformation_absorption tire_radius tire_stiffness)
    tire_forward_direction

/-- The candidate total force (engine force plus normalized lateral inertial
force) of `get_reaction_force_on_axle`. -/
def total_force (engine_torque tire_radius tire_stiffness : ℚ)
    (inertial_force tire_forward_direction tire_up_direction : Vec3) : Vec3 :=
  let da := deformation_absorption tire_radius tire_stiffness
  let tire_right_direction := cross tire_forward_direction tire_up_direction
  let lateral_inertial_force :=
    vsmul (dot inertial_force tire_right_direction * da) tire_right_direction
  let normalized_lateral_inertial_force :=
    vsmul (1 / LATERAL_FRICTION_MULTIPLIER) lateral_inertial_force
  vadd (engine_force engine_torque tire_radius tire_stiffness tire_forward_direction)
    normalized_lateral_inertial_force

/-- The function `get_reaction_force_on_axle` from `tire/force.py`.  The branch compares
`np.linalg.norm` values, encoded by the equivalent squared-norm comparison;
`np.linalg.norm(engine_force)` is `|τ/r · da| · ‖forward‖` since the engine
force is that scalar times `forward`. -/
def get_reaction_force_on_axle (engine_torque tire_radius : ℚ) (max_traction_force : Vec3)
    (tire_stiffness : ℚ) (inertial_force tire_forward_direction tire_up_direction : Vec3) :
    Vec3 :=
  let da := deformation_absorption tire_radius tire_stiffness
  let total := total_force engine_torque tire_radius tire_stiffness inertial_force
    tire_forward_direction tire_up_direction
  if normSq total ≤ normSq max_traction_force then
    vsmul (|engine_torque / tire_radius * da| * qsqrt (normSq tire_forward_direction) * da)
      tire_forward_direction
  else
    let d := qsqrt (normSq total) - qsqrt (normSq max_traction_force)
    let reaction_torque := engine_torque * (1 - WHEELSPIN_FACTOR * d ^ WHEELSPIN_TORQUE_SENSITIVITY)
    vsmul (reaction_torque / tire_radius * da) tire_forward_direction

/-! ## car_simulation.py, exact rational model

Used for the operations with no division-by-zero concerns
(`detect_boundaries`, `get_lateral_force`, `update_drift`). -/

structure CarQ where
  mass : ℚ
  tire_grip : ℚ
  wheel_base : ℚ
  max_steering_angle : ℚ
  position : ℚ × ℚ
  velocity : ℚ × ℚ
  heading : ℚ
  steering_angle : ℚ
  speed : ℚ
deriving DecidableEq, Repr

/-- The method `Car.detect_boundaries` from `car_simulation.py`.  The track spline is the
external collaborator (spec §1): `closest_point` is the value returned by
`track_spline.get_closest_point(self.position)`.  The comparison
`np.linalg.norm(position - closest_point) > track_width` is encoded without
square roots as `track_width < 0 ∨ track_width² < distSq`, which is exactly
equivalent because the norm is the nonnegative square root of `distSq`. -/
def detect_boundaries (c : CarQ) (closest_point : ℚ × ℚ) (track_width : ℚ) : Bool × CarQ :=
  let dx := c.position.1 - closest_point.1
  let dy := c.position.2 - closest_point.2
  let distSq := dx ^ 2 + dy ^ 2
  if track_width < 0 ∨ track_width ^ 2 < distSq then (true, { c with speed := 0 })
  else (false, c)

/-- The method `Car.get_lateral_force` from `car_simulation.py`.  `np.arctan2` and
`np.sin` are abstract parameters. -/
def get_lateral_force (sinf : ℚ → ℚ) (atan2f : ℚ → ℚ → ℚ) (c : CarQ) : ℚ :=
  let slip_angle := atan2f c.velocity.2 c.velocity.1 - c.heading
  c.tire_grip * sinf slip_angle

/-- The method `Car.update_drift` from `car_simulation.py`. -/
def update_drift (sinf : ℚ → ℚ) (atan2f : ℚ → ℚ → ℚ) (c : CarQ) : CarQ :=
  let lateral_force := get_lateral_force sinf atan2f c
  if |lateral_force| > c.tire_grip then
    let drift_factor := lateral_force / c.tire_grip
    { c with velocity := ((1 - drift_factor) * c.velocity.1, (1 - drift_factor) * c.velocity.2) }
  else c

/-! ## car_simulation.py, IEEE-style model

The steering update divides by `np.tan(steering_angle)`, which is `0.0` for a
steering angle of exactly 0; NumPy then yields a signed infinity (plus a
runtime warning, not an exception), and the subsequent `speed / inf` is `0.0`.
To settle claims about NaN/infinity propagation this needs a number model
with those values.  `F` is exact-rational IEEE-style arithmetic: finite
values carry a rational (no rounding or overflow, which the claims do not
touch), with `+inf`, `-inf` and `NaN` following the IEEE-754 special-value
rules for the operations used.  Only the positive zero is modelled (every
zero arising in the claims is `+0.0` in the Python). -/

inductive F where
  | fin : ℚ → F
  | pinf : F
  | ninf : F
  | nan : F
deriving DecidableEq, Repr

namespace F

def isFinite : F → Prop
  | fin _ => True
  | _ => False

def neg : F → F
  | fin a => fin (-a)
  | pinf => ninf
  | ninf => pinf
  | nan => nan

def add : F → F → F
  | nan, _ => nan
  | _, nan => nan
  | fin a, fin b => fin (a + b)
  | fin _, pinf => pinf
  | fin _, ninf => ninf
  | pinf, fin _ => pinf
  | ninf, fin _ => ninf
  | pinf, pinf => pinf
  | ninf, ninf => ninf
  | pinf, ninf => nan
  | ninf, pinf => nan

def mul : F → F → F
  | nan, _ => nan
  | _, nan => nan
  | fin a, fin b => fin (a * b)
  | fin a, pinf => if a = 0 then nan else if 0 < a then pinf else ninf
  | fin a, ninf => if a = 0 then nan else if 0 < a then ninf else pinf
  | pinf, fin b => if b = 0 then nan else if 0 < b then pinf else ninf
  | ninf, fin b => if b = 0 then nan else if 0 < b then ninf else pinf
  | pinf, pinf => pinf
  | ninf, ninf => pinf
  | pinf, ninf => ninf
  | ninf, pinf => ninf

def div : F → F → F
  | nan, _ => nan
  | _, nan => nan
  | fin a, fin b =>
    if b = 0 then (if a = 0 then nan else if 0 < a then pinf else ninf)
    else fin (a / b)
  | fin _, pinf => fin 0
  | fin _, ninf => fin 0
  | pinf, fin b => if 0 ≤ b then pinf else ninf
  | ninf, fin b => if 0 ≤ b then ninf else pinf
  | pinf, pinf => nan
  | pinf, ninf => nan
  | ninf, pinf => nan
  | ninf, ninf => nan

instance : Add F := ⟨add⟩
instance : Mul F := ⟨mul⟩
instance : Div F := ⟨div⟩
instance : Neg F := ⟨neg⟩

def sub (a b : F) : F := a + (-b)

instance : Sub F := ⟨sub⟩

end F

structure CarF where
  mass : F
  tire_grip : F
  wheel_base : F
  max_steering_angle : F
  position : F × F
  velocity : F × F
  heading : F
  steering_angle : F
  speed : F
deriving DecidableEq, Repr

/-- The method `Car._apply_steering` from `car_simulation.py`, over the IEEE-style
model; `tanf` stands for `np.tan`. -/
def apply_steering (tanf : F → F) (c : CarF) : CarF :=
  let turning_radius := c.wheel_base / tanf c.steering_angle
  let angular_velocity := c.speed / turning_radius
  { c with heading := c.heading + angular_velocity }

/-- The method `Car.apply_controls` from `car_simulation.py`, over the IEEE-style model;
`tanf`, `cosf`, `sinf` stand for `np.tan`, `np.cos`, `np.sin`.  The field
updates happen in the source's order; `_apply_steering` then reads the
already-updated `steering_angle` and `speed`. -/
def apply_controls (tanf cosf sinf : F → F) (throttle brake steering_input : F)
    (c : CarF) : CarF :=
  let c1 := { c with steering_angle := steering_input * c.max_steering_angle }
  let force := throttle * F.fin 500 - brake * F.fin 300
  let acceleration := force / c1.mass
  let c2 := { c1 with speed := c1.speed + acceleration }
  let c3 := { c2 with velocity := (c2.speed * cosf c2.heading, c2.speed * sinf c2.heading) }
  let c4 := { c3 with
    position := (c3.position.1 + c3.velocity.1, c3.position.2 + c3.velocity.2) }
  apply_steering tanf c4

/-- The method `apply_controls` iterated `n` times with the same inputs. -/
def iterate_controls (tanf cosf sinf : F → F) (throttle brake steering_input : F) :
    ℕ → CarF → CarF
  | 0, c => c
  | n + 1, c =>
    iterate_controls tanf cosf sinf throttle brake steering_input n
      (apply_controls tanf cosf sinf throttle brake steering_input c)

/-! ## Theorems -/

/-- C5: for every car state, closest centerline point (the track
collaborator's answer) and nonnegative track width, `detect_boundaries`
returns true and sets speed to 0 exactly when the distance from the car's
position to the closest point exceeds `track_width` (squared-distance form),
otherwise returns false leaving the car unchanged; at distance exactly equal
to `track_width` it reports not-off-track. -/
theorem C5_detect_boundaries (c : CarQ) (cp : ℚ × ℚ) (w : ℚ) (hw : 0 ≤ w) :
    (w ^ 2 < (c.position.1 - cp.1) ^ 2 + (c.position.2 - cp.2) ^ 2 →
      detect_boundaries c cp w = (true, { c with speed := 0 })) ∧
    ((c.position.1 - cp.1) ^ 2 + (c.position.2 - cp.2) ^ 2 ≤ w ^ 2 →
      detect_boundaries c cp w = (false, c)) := by
  constructor
  · intro h
    simp only [detect_boundaries]
    rw [if_pos (Or.inr h)]
  · intro h
    simp only [detect_boundaries]
    rw [if_neg]
    push_neg
    exact ⟨hw, h⟩

/-- Witness for C5: a car at (3,4) with closest centerline point (0,0)
(distance 5) is off-track for width 4 with speed zeroed, and on-track,
unchanged, for width exactly 5 (the inclusive edge). -/
theorem C5_witness :
    detect_boundaries ⟨1, 1, 1, 1, (3, 4), (0, 0), 0, 0, 7⟩ (0, 0) 4 =
      (true, ⟨1, 1, 1, 1, (3, 4), (0, 0), 0, 0, 0⟩) ∧
    detect_boundaries ⟨1, 1, 1, 1, (3, 4), (0, 0), 0, 0, 7⟩ (0, 0) 5 =
      (false, ⟨1, 1, 1, 1, (3, 4), (0, 0), 0, 0, 7⟩) :=
  ⟨(C5_detect_boundaries ⟨1, 1, 1, 1, (3, 4), (0, 0), 0, 0, 7⟩ (0, 0) 4 (by norm_num)).1
      (by norm_num),
   (C5_detect_boundaries ⟨1, 1, 1, 1, (3, 4), (0, 0), 0, 0, 7⟩ (0, 0) 5 (by norm_num)).2
      (by norm_num)⟩

/-- C10: for every car state with `tire_grip ≥ 0`, `update_drift` leaves the
state unchanged: the lateral force is `tire_grip * sin(slip_angle)`, whose
absolute value never exceeds `tire_grip` (since `|sin| ≤ 1`), so the
velocity-scaling branch is unreachable. -/
theorem C10_update_drift_id (sinf : ℚ → ℚ) (atan2f : ℚ → ℚ → ℚ)
    (hsin : ∀ x, |sinf x| ≤ 1) (c : CarQ) (hg : 0 ≤ c.tire_grip) :
    update_drift sinf atan2f c = c := by
  simp only [update_drift, get_lateral_force]
  rw [if_neg]
  rw [not_lt, abs_mul, abs_of_nonneg hg]
  calc c.tire_grip * |sinf _| ≤ c.tire_grip * 1 :=
        mul_le_mul_of_nonneg_left (hsin _) hg
    _ = c.tire_grip := mul_one _

/-- Witness for C10 at a car with grip 1 moving diagonally. -/
theorem C10_witness :
    update_drift (fun _ => 0) (fun _ _ => 0) ⟨1, 1, 1, 1, (0, 0), (1, 1), 0, 0, 5⟩ =
      ⟨1, 1, 1, 1, (0, 0), (1, 1), 0, 0, 5⟩ :=
  C10_update_drift_id (fun _ => 0) (fun _ _ => 0) (fun _ => by norm_num) _ (by norm_num)

/-- C3: for every tire temperature `t` and hardness `h`, with `low` and
`high` the optimal bounds interpolated from the hardness reference curves,
if `low ≤ t ≤ high` then the temperature sub-factor of the grip computation
equals exactly 1. -/
theorem C3_temperature_optimal (t h : ℚ)
    (hlow : interpolate_curve h REFERENCE_HARDNESS_TO_TEMP_LOW_CURVE ≤ t)
    (hhigh : t ≤ interpolate_curve h REFERENCE_HARDNESS_TO_TEMP_HIGH_CURVE) :
    temperature_effect t h = 1 := by
  simp only [temperature_effect]
  rw [if_neg (not_lt.mpr hlow), if_pos ⟨hlow, hhigh⟩, if_neg (not_lt.mpr hhigh)]
  ring

/-- Witness for C3: hardness 1/2 gives the optimal range [75, 105], and at
80 °C the factor is 1. -/
theorem C3_witness :
    interpolate_curve (1/2) REFERENCE_HARDNESS_TO_TEMP_LOW_CURVE ≤ 80 ∧
    temperature_effect 80 (1/2) = 1 :=
  ⟨by norm_num [interpolate_curve, interpGo, REFERENCE_HARDNESS_TO_TEMP_LOW_CURVE],
   C3_temperature_optimal 80 (1/2)
     (by norm_num [interpolate_curve, interpGo, REFERENCE_HARDNESS_TO_TEMP_LOW_CURVE])
     (by norm_num [interpolate_curve, interpGo, REFERENCE_HARDNESS_TO_TEMP_HIGH_CURVE])⟩

/-- C9 counterexample: with factor values [1, 2] and weights [-1, -1], the
total weight is -2 ≤ 0, yet `weighted_sum` returns the value 3/2 (no error
is raised), refuting the claim that a non-positive total weight fails. -/
theorem C9_counterexample :
    (([-1, -1] : List ℚ).sum ≤ 0) ∧ weighted_sum [1, 2] [-1, -1] = some (3/2) := by
  constructor
  · norm_num
  · norm_num [weighted_sum, weightedSumVal]

/-- C9 amended: for equal-length values and weights with strictly negative
total weight, `weighted_sum` still returns the value `Σ(v·w)/Σw` rather than
failing (NumPy raises no exception; for a total weight of exactly zero it
returns an IEEE infinity or NaN value together with a runtime warning, again
not an error). -/
theorem C9_amended (values weights : List ℚ) (hlen : values.length = weights.length)
    (_hneg : weights.sum < 0) :
    weighted_sum values weights = some (weightedSumVal values weights) := by
  simp only [weighted_sum, if_pos hlen]

/-- Witness for C9 amended at values [1, 2], weights [-1, -1]. -/
theorem C9_amended_witness :
    (([-1, -1] : List ℚ).sum < 0) ∧
    weighted_sum [1, 2] [-1, -1] = some (weightedSumVal [1, 2] [-1, -1]) :=
  ⟨by norm_num, C9_amended [1, 2] [-1, -1] (by simp) (by norm_num)⟩

/-- C2 counterexample: the road type "mud" is outside the accepted set, yet
`material_friction` raises no error — it silently computes with the
defaulted road friction 0 and returns the grip value 0 (here with concrete
placeholder functions for the irrational operations, which the result does
not depend on). -/
theorem C2_counterexample :
    ("mud" ∉ (["asphalt", "concrete", "dirt", "gravel", "grass", "ice"] : List String)) ∧
    material_friction ⟨fun _ _ => 1, fun _ => 1, fun _ => 1⟩ 1 0 "mud" 1 = 0 := by
  constructor
  · decide
  · simp [material_friction]

/-- C2 amended: for every road type outside the closed set {asphalt,
concrete, dirt, gravel, grass, ice}, the grip computation does **not** fail:
all road-type masks are false, so the road friction stays at its
`np.zeros_like` default 0 and the tread effect is 0, and both
`material_friction` and `get_tire_grip` silently return 0. -/
theorem C2_unknown_road_silent_zero (p : Flt) (mc tread rc width hard press temp wear camber : ℚ)
    (road : String)
    (hroad : road ∉ (["asphalt", "concrete", "dirt", "gravel", "grass", "ice"] : List String)) :
    material_friction p mc tread road rc = 0 ∧
    get_tire_grip p mc tread road rc width hard press temp wear camber = 0 := by
  simp only [List.mem_cons, List.not_mem_nil, or_false, not_or] at hroad
  obtain ⟨h1, h2, h3, h4, h5, h6⟩ := hroad
  have hmf : material_friction p mc tread road rc = 0 := by
    simp only [material_friction, if_neg h1, if_neg h2, if_neg h3, if_neg h4, if_neg h5,
      if_neg h6, if_neg (not_or.mpr ⟨h1, h2⟩),
      if_neg (show ¬(road = "dirt" ∨ road = "gravel" ∨ road = "grass") by
        rintro (h | h | h)
        exacts [h3 h, h4 h, h5 h])]
    ring
  refine ⟨hmf, ?_⟩
  simp only [get_tire_grip, hmf, zero_mul]

/-- Witness for C2 amended at road type "mud". -/
theorem C2_witness :
    ("mud" ∉ (["asphalt", "concrete", "dirt", "gravel", "grass", "ice"] : List String)) ∧
    material_friction ⟨fun _ _ => 0, fun _ => 0, fun _ => 0⟩ 1 0 "mud" 1 = 0 ∧
    get_tire_grip ⟨fun _ _ => 0, fun _ => 0, fun _ => 0⟩ 1 0 "mud" 1 305 (1/2) 30 90 (1/2)
      (-5/2) = 0 :=
  ⟨by decide,
   (C2_unknown_road_silent_zero ⟨fun _ _ => 0, fun _ => 0, fun _ => 0⟩ 1 0 1 305 (1/2) 30 90
      (1/2) (-5/2) "mud" (by decide)).1,
   (C2_unknown_road_silent_zero ⟨fun _ _ => 0, fun _ => 0, fun _ => 0⟩ 1 0 1 305 (1/2) 30 90
      (1/2) (-5/2) "mud" (by decide)).2⟩

/-! ### C1: interpolation clamps outside the range -/

/-- Strictly increasing x-coordinates, starting strictly after `x0`. -/
def xChain : ℚ → List (ℚ × ℚ) → Prop
  | _, [] => True
  | x0, (x1, _) :: rest => x0 < x1 ∧ xChain x1 rest

/-- The last control point of `(p :: rest)`. -/
def lastP (p : ℚ × ℚ) : List (ℚ × ℚ) → ℚ × ℚ
  | [] => p
  | q :: rest => lastP q rest

lemma lastP_fst_ge (rest : List (ℚ × ℚ)) : ∀ x0 y0, xChain x0 rest →
    x0 ≤ (lastP (x0, y0) rest).1 := by
  induction rest with
  | nil => intro x0 y0 _; exact le_refl _
  | cons q t ih =>
    obtain ⟨x1, y1⟩ := q
    intro x0 y0 h
    obtain ⟨h01, hc⟩ := h
    exact le_of_lt (lt_of_lt_of_le h01 (ih x1 y1 hc))

lemma lastP_fst_gt (rest : List (ℚ × ℚ)) (x0 y0 : ℚ) (hne : rest ≠ [])
    (h : xChain x0 rest) : x0 < (lastP (x0, y0) rest).1 := by
  cases rest with
  | nil => exact absurd rfl hne
  | cons q t =>
    obtain ⟨x1, y1⟩ := q
    obtain ⟨h01, hc⟩ := h
    exact lt_of_lt_of_le h01 (lastP_fst_ge t x1 y1 hc)

lemma interpGo_last (rest : List (ℚ × ℚ)) : ∀ x0 y0 x, xChain x0 rest →
    (lastP (x0, y0) rest).1 ≤ x →
    interpGo x x0 y0 rest = (lastP (x0, y0) rest).2 := by
  induction rest with
  | nil => intro x0 y0 x _ _; rfl
  | cons q t ih =>
    obtain ⟨x1, y1⟩ := q
    intro x0 y0 x h hx
    obtain ⟨h01, hc⟩ := h
    show interpGo x x0 y0 ((x1, y1) :: t) = (lastP (x1, y1) t).2
    have hx' : (lastP (x1, y1) t).1 ≤ x := hx
    by_cases hle : x ≤ x1
    · cases t with
      | nil =>
        have hxx : x = x1 := le_antisymm hle hx'
        have hd : x1 - x0 ≠ 0 := sub_ne_zero.mpr (ne_of_gt h01)
        simp only [interpGo, if_pos hle, lastP, hxx]
        field_simp
      | cons q2 t2 =>
        exact absurd (lt_of_lt_of_le (lastP_fst_gt _ x1 y1 (by simp) hc) hx')
          (not_lt.mpr hle)
    · simp only [interpGo, if_neg hle]
      exact ih x1 y1 x hc hx'

lemma xChain_mem_gt (t : List (ℚ × ℚ)) : ∀ x1, xChain x1 t →
    ∀ xi yi, (xi, yi) ∈ t → x1 < xi := by
  induction t with
  | nil => intro x1 _ xi yi h; cases h
  | cons q t' ih =>
    obtain ⟨x2, y2⟩ := q
    intro x1 h xi yi hm
    obtain ⟨h12, hc⟩ := h
    rcases List.mem_cons.mp hm with h | h
    · obtain ⟨rfl, rfl⟩ := Prod.mk.injEq .. ▸ h
      exact h12
    · exact lt_trans h12 (ih x2 hc xi yi h)

lemma interpGo_mem (rest : List (ℚ × ℚ)) : ∀ x0 y0, xChain x0 rest →
    ∀ xi yi, (xi, yi) ∈ rest → interpGo xi x0 y0 rest = yi := by
  induction rest with
  | nil => intro x0 y0 _ xi yi h; cases h
  | cons q t ih =>
    obtain ⟨x1, y1⟩ := q
    intro x0 y0 h xi yi hm
    obtain ⟨h01, hc⟩ := h
    rcases List.mem_cons.mp hm with h | h
    · obtain ⟨rfl, rfl⟩ := Prod.mk.injEq .. ▸ h
      simp only [interpGo, if_pos (le_refl xi)]
      have : xi - x0 ≠ 0 := sub_ne_zero.mpr (ne_of_gt h01)
      field_simp
    · have hgt : x1 < xi := xChain_mem_gt t x1 hc xi yi h
      simp only [interpGo, if_neg (not_le.mpr hgt)]
      exact ih x1 y1 hc xi yi h

/-- C1 counterexample: over the control points [(0,0), (1,1)] (strictly
increasing x), the query x = 2 lies past the last point; extrapolation along
the final segment's slope would give 2, but `interpolate_curve` (np.interp)
returns the clamped endpoint value 1. -/
theorem C1_counterexample :
    interpolate_curve 2 [(0, 0), (1, 1)] = 1 ∧
    interpolate_curve 2 [(0, 0), (1, 1)] ≠ 2 := by
  have h : interpolate_curve 2 [((0:ℚ), (0:ℚ)), (1, 1)] = 1 := by
    norm_num [interpolate_curve, interpGo]
  exact ⟨h, by rw [h]; norm_num⟩

/-- C1 amended: for a list of at least 2 control points with strictly
increasing x, the curve interpolator **clamps** outside the control-point
range — below the first point it returns the first y, above the last point
it returns the last y (it does not extrapolate along the nearest segment's
slope) — and for a query equal to a control point's x it returns that
point's y exactly. -/
theorem C1_clamp_and_exact (x0 y0 : ℚ) (rest : List (ℚ × ℚ)) (hne : rest ≠ [])
    (hchain : xChain x0 rest) :
    (∀ x, x ≤ x0 → interpolate_curve x ((x0, y0) :: rest) = y0) ∧
    (∀ x, (lastP (x0, y0) rest).1 ≤ x →
      interpolate_curve x ((x0, y0) :: rest) = (lastP (x0, y0) rest).2) ∧
    (∀ xi yi, (xi, yi) ∈ (x0, y0) :: rest →
      interpolate_curve xi ((x0, y0) :: rest) = yi) := by
  refine ⟨?_, ?_, ?_⟩
  · intro x hx
    simp only [interpolate_curve, if_pos hx]
  · intro x hx
    have hgt : x0 < (lastP (x0, y0) rest).1 := lastP_fst_gt rest x0 y0 hne hchain
    have hxgt : ¬x ≤ x0 := not_le.mpr (lt_of_lt_of_le hgt hx)
    simp only [interpolate_curve, if_neg hxgt]
    exact interpGo_last rest x0 y0 x hchain hx
  · intro xi yi hm
    rcases List.mem_cons.mp hm with h | h
    · obtain ⟨rfl, rfl⟩ := Prod.mk.injEq .. ▸ h
      simp only [interpolate_curve, if_pos (le_refl xi)]
    · have hgt : x0 < xi := xChain_mem_gt rest x0 hchain xi yi h
      simp only [interpolate_curve, if_neg (not_le.mpr hgt)]
      exact interpGo_mem rest x0 y0 hchain xi yi h

/-- Witness for C1 amended over [(0,0), (1,1), (3,2)]: clamped value 0 at
x = -1, clamped value 2 at x = 5, and the exact value 1 at the control
point x = 1. -/
theorem C1_witness :
    interpolate_curve (-1) [(0, 0), (1, 1), (3, 2)] = 0 ∧
    interpolate_curve 5 [(0, 0), (1, 1), (3, 2)] = 2 ∧
    interpolate_curve 1 [(0, 0), (1, 1), (3, 2)] = 1 := by
  have h := C1_clamp_and_exact 0 0 [(1, 1), (3, 2)] (by simp)
    (by norm_num [xChain])
  exact ⟨h.1 (-1) (by norm_num), h.2.1 5 (by norm_num [lastP]),
    h.2.2 1 1 (by simp)⟩

/-! ### C8: grip is non-increasing in tire wear -/

/-- Strictly increasing x with non-increasing y along a control-point list,
the shape of the wear reference curve. -/
def monoChain : ℚ → ℚ → List (ℚ × ℚ) → Prop
  | _, _, [] => True
  | x0, y0, (x1, y1) :: rest => x0 < x1 ∧ y1 ≤ y0 ∧ monoChain x1 y1 rest

lemma interpGo_le_head (rest : List (ℚ × ℚ)) : ∀ x0 y0 x, monoChain x0 y0 rest →
    x0 ≤ x → interpGo x x0 y0 rest ≤ y0 := by
  induction rest with
  | nil => intro x0 y0 x _ _; exact le_refl _
  | cons q t ih =>
    obtain ⟨x1, y1⟩ := q
    intro x0 y0 x h hx
    obtain ⟨h01, hy, hc⟩ := h
    by_cases hle : x ≤ x1
    · simp only [interpGo, if_pos hle]
      have hd : (0:ℚ) < x1 - x0 := sub_pos.mpr h01
      have hnum : (y1 - y0) * (x - x0) ≤ 0 :=
        mul_nonpos_of_nonpos_of_nonneg (sub_nonpos.mpr hy) (sub_nonneg.mpr hx)
      have := div_nonpos_of_nonpos_of_nonneg hnum (le_of_lt hd)
      linarith
    · simp only [interpGo, if_neg hle]
      exact le_trans (ih x1 y1 x hc (le_of_not_le hle)) hy

lemma interpGo_anti (rest : List (ℚ × ℚ)) : ∀ x0 y0 a b, monoChain x0 y0 rest →
    a ≤ b → interpGo b x0 y0 rest ≤ interpGo a x0 y0 rest := by
  induction rest with
  | nil => intro x0 y0 a b _ _; exact le_refl _
  | cons q t ih =>
    obtain ⟨x1, y1⟩ := q
    intro x0 y0 a b h hab
    obtain ⟨h01, hy, hc⟩ := h
    have hd : (0:ℚ) < x1 - x0 := sub_pos.mpr h01
    by_cases hb : b ≤ x1
    · have ha : a ≤ x1 := le_trans hab hb
      simp only [interpGo, if_pos ha, if_pos hb]
      have key : (y1 - y0) * (b - x0) / (x1 - x0) ≤ (y1 - y0) * (a - x0) / (x1 - x0) := by
        apply (div_le_div_iff_of_pos_right hd).mpr
        nlinarith
      linarith
    · by_cases ha : a ≤ x1
      · simp only [interpGo, if_pos ha, if_neg hb]
        have h1 : interpGo b x1 y1 t ≤ y1 :=
          interpGo_le_head t x1 y1 b hc (le_of_not_le hb)
        have h2 : y1 ≤ y0 + (y1 - y0) * (a - x0) / (x1 - x0) := by
          have hkey : (0:ℚ) ≤ (y0 - y1) * (x1 - a) / (x1 - x0) :=
            div_nonneg (mul_nonneg (by linarith) (by linarith)) (le_of_lt hd)
          have heq : y0 + (y1 - y0) * (a - x0) / (x1 - x0) - y1 =
              (y0 - y1) * (x1 - a) / (x1 - x0) := by
            field_simp
            ring
          rw [← heq] at hkey
          linarith
        exact le_trans h1 h2
      · simp only [interpGo, if_neg ha, if_neg hb]
        exact ih x1 y1 a b hc hab

lemma interpolate_curve_anti (x0 y0 : ℚ) (rest : List (ℚ × ℚ))
    (h : monoChain x0 y0 rest) {a b : ℚ} (hab : a ≤ b) :
    interpolate_curve b ((x0, y0) :: rest) ≤ interpolate_curve a ((x0, y0) :: rest) := by
  by_cases hb : b ≤ x0
  · have ha : a ≤ x0 := le_trans hab hb
    simp only [interpolate_curve, if_pos ha, if_pos hb]
    exact le_refl _
  · by_cases ha : a ≤ x0
    · simp only [interpolate_curve, if_pos ha, if_neg hb]
      exact interpGo_le_head rest x0 y0 b h (le_of_not_le hb)
    · simp only [interpolate_curve, if_neg ha, if_neg hb]
      exact interpGo_anti rest x0 y0 a b h hab

/-- The wear reference curve satisfies the monotone-chain shape. -/
lemma wear_curve_monoChain :
    monoChain 0 1 [((1:ℚ)/10, 19/20), (1/5, 9/10), (3/10, 41/50), (2/5, 3/4), (1/2, 3/5),
      (3/5, 1/2), (7/10, 1/5), (4/5, 2/25), (9/10, 3/100), (1, 0)] := by
  norm_num [monoChain]

lemma tire_wear_effect_anti {w1 w2 : ℚ} (h : w1 ≤ w2) :
    tire_wear_effect w2 ≤ tire_wear_effect w1 := by
  have hc : clip w1 0 1 ≤ clip w2 0 1 :=
    min_le_min (max_le_max h (le_refl 0)) (le_refl 1)
  exact interpolate_curve_anti 0 1 _ wear_curve_monoChain hc

/-- C8: for every fixed assignment of all other grip inputs (with the
material/road base friction nonnegative, as it is for all valid inputs:
the data model requires a positive material coefficient and a road
condition in [0,1]), `get_tire_grip` is monotonically non-increasing in
tire wear: for any `w1 ≤ w2`, the grip at `w2` is at most the grip at
`w1`. -/
theorem C8_grip_wear_antitone (p : Flt) (mc tread : ℚ) (road : String)
    (rc width hard press temp camber w1 w2 : ℚ) (hw : w1 ≤ w2)
    (hbase : 0 ≤ material_friction p mc tread road rc) :
    get_tire_grip p mc tread road rc width hard press temp w2 camber ≤
    get_tire_grip p mc tread road rc width hard press temp w1 camber := by
  have hwear := tire_wear_effect_anti hw
  simp only [get_tire_grip, weighted_sum, weightedSumVal, List.length_cons,
    List.length_nil, eq_self_iff_true, if_true, Option.getD_some, List.zipWith_cons_cons,
    List.zipWith_nil, List.sum_cons, List.sum_nil, TIRE_HARDNESS_EFFECT,
    TIRE_PRESSURE_EFFECT, TIRE_WIDTH_EFFECT, CAMBER_EFFECT, TEMPERATURE_EFFECT,
    TIRE_WEAR_EFFECT]
  apply mul_le_mul_of_nonneg_left _ hbase
  gcongr

/-- Witness for C8 with placeholder irrational operations (all constant 1)
on asphalt in ideal condition, comparing wear 1/10 against wear 1/2. -/
theorem C8_witness :
    ((1:ℚ)/10 ≤ 1/2) ∧
    get_tire_grip ⟨fun _ _ => 1, fun _ => 1, fun _ => 1⟩ 1 0 "asphalt" 1 305 (1/2) 28 80
      (1/2) (-7/2) ≤
    get_tire_grip ⟨fun _ _ => 1, fun _ => 1, fun _ => 1⟩ 1 0 "asphalt" 1 305 (1/2) 28 80
      (1/10) (-7/2) :=
  ⟨by norm_num,
   C8_grip_wear_antitone ⟨fun _ _ => 1, fun _ => 1, fun _ => 1⟩ 1 0 "asphalt" 1 305 (1/2)
     28 80 (-7/2) (1/10) (1/2) (by norm_num)
     (by simp [material_friction, sgnQ]; norm_num [FRICTION_ASPHALT])⟩

/-! ### C4: the no-slip reaction force -/

lemma qsqrt_one : qsqrt 1 = 1 := by norm_num [qsqrt]

/-- C4 counterexample: torque 1, radius 1, stiffness 1 (absorption 9/10),
unit forward (1,0,0), up (0,0,1), no inertial force, ample traction — the
no-slip branch is taken, and the returned reaction is (81/100, 0, 0), along
**+forward**; the claim's value — the engine-force component (which opposes
the forward direction) scaled once more by the absorption factor — is
(-81/100, 0, 0), so the claim is false at this input. -/
theorem C4_counterexample :
    get_reaction_force_on_axle 1 1 (10, 0, 0) 1 (0, 0, 0) (1, 0, 0) (0, 0, 1) =
      (81/100, 0, 0) ∧
    ((81:ℚ)/100, (0:ℚ), (0:ℚ)) ≠
      vsmul (deformation_absorption 1 1) (engine_force 1 1 1 (1, 0, 0)) := by
  constructor
  · norm_num [get_reaction_force_on_axle, total_force, engine_force, deformation_absorption,
      vsmul, vadd, dot, cross, normSq, qsqrt, TIRE_DEFORMATION_FACTOR,
      LATERAL_FRICTION_MULTIPLIER]
    rw [abs_of_pos] <;> norm_num
  · norm_num [vsmul, engine_force, deformation_absorption, TIRE_DEFORMATION_FACTOR,
      Prod.ext_iff]

/-- C4 amended: in the no-slip regime (candidate total force no larger in
magnitude than the max traction force), with nonnegative torque, positive
radius, nonnegative absorption factor and a unit forward direction, the
reaction force equals `(torque/radius)·absorption² · forward` — the same
magnitude the claim states, but pointing **along** the forward direction,
i.e. the *negation* of the engine-force component scaled once by the
absorption factor (the reaction to the engine force, not the engine force
itself). -/
theorem C4_no_slip (τ r s : ℚ) (maxT inertial f u : Vec3)
    (hτ : 0 ≤ τ) (hr : 0 < r)
    (hda : 0 ≤ deformation_absorption r s)
    (hf : normSq f = 1)
    (hns : normSq (total_force τ r s inertial f u) ≤ normSq maxT) :
    get_reaction_force_on_axle τ r maxT s inertial f u =
      vsmul (τ / r * deformation_absorption r s ^ 2) f ∧
    get_reaction_force_on_axle τ r maxT s inertial f u =
      vsmul (-deformation_absorption r s) (engine_force τ r s f) := by
  have h1 : get_reaction_force_on_axle τ r maxT s inertial f u =
      vsmul (τ / r * deformation_absorption r s ^ 2) f := by
    simp only [get_reaction_force_on_axle]
    rw [if_pos hns, hf, qsqrt_one]
    have habs : |τ / r * deformation_absorption r s| = τ / r * deformation_absorption r s :=
      abs_of_nonneg (mul_nonneg (div_nonneg hτ (le_of_lt hr)) hda)
    rw [habs]
    have hs : τ / r * deformation_absorption r s * 1 * deformation_absorption r s =
        τ / r * deformation_absorption r s ^ 2 := by ring
    rw [hs]
  refine ⟨h1, h1.trans ?_⟩
  simp only [engine_force, vsmul, Prod.mk.injEq]
  refine ⟨by ring, by ring, by ring⟩

/-- Witness for C4 amended at the counterexample's input. -/
theorem C4_witness :
    (0:ℚ) < 1 ∧
    get_reaction_force_on_axle 1 1 (10, 0, 0) 1 (0, 0, 0) (1, 0, 0) (0, 0, 1) =
      vsmul (1 / 1 * deformation_absorption 1 1 ^ 2) (1, 0, 0) :=
  ⟨by norm_num,
   (C4_no_slip 1 1 1 (10, 0, 0) (0, 0, 0) (1, 0, 0) (0, 0, 1) (by norm_num) (by norm_num)
     (by norm_num [deformation_absorption, TIRE_DEFORMATION_FACTOR])
     (by norm_num [normSq, dot])
     (by norm_num [total_force, engine_force, deformation_absorption, vsmul, vadd, dot,
       cross, normSq, TIRE_DEFORMATION_FACTOR, LATERAL_FRICTION_MULTIPLIER])).1⟩

/-! ### C6, C7: steering and zero-input ticks under IEEE semantics -/

lemma F.fin_add_fin (a b : ℚ) : F.fin a + F.fin b = F.fin (a + b) := rfl

lemma F.fin_mul_fin (a b : ℚ) : F.fin a * F.fin b = F.fin (a * b) := rfl

lemma F.fin_sub_fin (a b : ℚ) : F.fin a - F.fin b = F.fin (a - b) := by
  show F.fin (a + -b) = F.fin (a - b)
  rw [← sub_eq_add_neg]

lemma F.add_fin_zero (x : F) : x + F.fin 0 = x := by
  cases x with
  | fin q => rw [F.fin_add_fin, add_zero]
  | pinf => rfl
  | ninf => rfl
  | nan => rfl

lemma F.fin_div_fin (a b : ℚ) (h : b ≠ 0) : F.fin a / F.fin b = F.fin (a / b) := by
  show F.div (F.fin a) (F.fin b) = F.fin (a / b)
  simp [F.div, h]

lemma F.fin_div_fin_zero_pos (a : ℚ) (h : 0 < a) : F.fin a / F.fin 0 = F.pinf := by
  show F.div (F.fin a) (F.fin 0) = F.pinf
  simp [F.div, ne_of_gt h, h]

lemma F.fin_div_fin_zero_neg (a : ℚ) (h : a < 0) : F.fin a / F.fin 0 = F.ninf := by
  show F.div (F.fin a) (F.fin 0) = F.ninf
  simp [F.div, ne_of_lt h, not_lt.mpr (le_of_lt h)]

lemma F.fin_div_pinf (a : ℚ) : F.fin a / F.pinf = F.fin 0 := rfl

lemma F.fin_div_ninf (a : ℚ) : F.fin a / F.ninf = F.fin 0 := rfl

/-- C6: the Ackermann heading update is safe at the steering edge cases.
(1) For a car whose steering angle is exactly 0 (with finite nonzero
wheelbase and finite speed and heading), one `_apply_steering` tick leaves
the heading unchanged (straight travel) and finite — no NaN or infinity is
produced: `np.tan(0) = 0`, the division `wheelbase/0` yields a signed
infinity, and `speed/±inf = 0`.  (2) With steering_input 1 and
max_steering_angle 0.5 the steering angle is 0.5; for wheelbase 2.5 and any
nonzero finite speed, since `np.tan(0.5)` is some finite nonzero `t`, the
heading change in one tick is finite and nonzero. -/
theorem C6_steering_safe (tanf : F → F) (htan0 : tanf (F.fin 0) = F.fin 0)
    (c₁ : CarF) (w₁ hd₁ s₁ : ℚ)
    (hw₁ : c₁.wheel_base = F.fin w₁) (hw₁0 : w₁ ≠ 0)
    (hsa₁ : c₁.steering_angle = F.fin 0)
    (hhd₁ : c₁.heading = F.fin hd₁) (hsp₁ : c₁.speed = F.fin s₁)
    (t : ℚ) (htan : tanf (F.fin (1/2)) = F.fin t) (ht : t ≠ 0)
    (c₂ : CarF) (hd₂ s₂ : ℚ)
    (hw₂ : c₂.wheel_base = F.fin (5/2))
    (hsa₂ : c₂.steering_angle = F.fin (1/2))
    (hhd₂ : c₂.heading = F.fin hd₂) (hsp₂ : c₂.speed = F.fin s₂) (hs₂ : s₂ ≠ 0) :
    (apply_steering tanf c₁).heading = F.fin hd₁ ∧
    ∃ d : ℚ, d ≠ 0 ∧ (apply_steering tanf c₂).heading = F.fin (hd₂ + d) := by
  constructor
  · simp only [apply_steering, hsa₁, htan0, hw₁, hsp₁, hhd₁]
    rcases hw₁0.lt_or_lt with h | h
    · rw [F.fin_div_fin_zero_neg w₁ h, F.fin_div_ninf, F.add_fin_zero]
    · rw [F.fin_div_fin_zero_pos w₁ h, F.fin_div_pinf, F.add_fin_zero]
  · have hq : (5:ℚ)/2 / t ≠ 0 := div_ne_zero (by norm_num) ht
    refine ⟨s₂ / ((5:ℚ)/2 / t), div_ne_zero hs₂ hq, ?_⟩
    simp only [apply_steering, hsa₂, htan, hw₂, hsp₂, hhd₂]
    rw [F.fin_div_fin _ _ ht, F.fin_div_fin _ _ hq, F.fin_add_fin]

/-- Witness for C6: a concrete `tanf` with `tan 0 = 0` and `tan 0.5 = 1`,
a zero-steering car with wheelbase 2 and a steering car with wheelbase
2.5. -/
theorem C6_witness :
    (apply_steering (fun x => if x = F.fin 0 then F.fin 0 else F.fin 1)
      ⟨F.fin 1, F.fin 1, F.fin 2, F.fin (1/2), (F.fin 0, F.fin 0), (F.fin 0, F.fin 0),
        F.fin 3, F.fin 0, F.fin 4⟩).heading = F.fin 3 ∧
    ∃ d : ℚ, d ≠ 0 ∧
      (apply_steering (fun x => if x = F.fin 0 then F.fin 0 else F.fin 1)
        ⟨F.fin 1, F.fin 1, F.fin (5/2), F.fin (1/2), (F.fin 0, F.fin 0), (F.fin 0, F.fin 0),
          F.fin 3, F.fin (1/2), F.fin 4⟩).heading = F.fin (3 + d) := by
  have hne : F.fin ((1:ℚ)/2) ≠ F.fin 0 := by
    intro h
    injection h with h'
    norm_num at h'
  refine C6_steering_safe (fun x => if x = F.fin 0 then F.fin 0 else F.fin 1) ?_ _ 2 3 4
    rfl (by norm_num) rfl rfl rfl 1 ?_ one_ne_zero _ 3 4 rfl rfl rfl rfl (by norm_num)
  · exact if_pos rfl
  · exact if_neg hne

/-- One zero-input tick on a resting car (speed 0, velocity (0,0)), with
finite nonzero mass and wheelbase, finite max steering angle and heading:
the only change is the steering angle being set to 0.  `np.cos`/`np.sin`
return finite values on finite inputs, and `np.tan 0 = 0`. -/
lemma apply_controls_rest_step (tanf cosf sinf : F → F) (c : CarF) (m w msa hd : ℚ)
    (hm : c.mass = F.fin m) (hm0 : m ≠ 0)
    (hw : c.wheel_base = F.fin w) (hw0 : w ≠ 0)
    (hmsa : c.max_steering_angle = F.fin msa)
    (hhd : c.heading = F.fin hd)
    (hsp : c.speed = F.fin 0)
    (hv : c.velocity = (F.fin 0, F.fin 0))
    (htan : tanf (F.fin 0) = F.fin 0)
    (hcos : ∀ q, ∃ a, cosf (F.fin q) = F.fin a)
    (hsin : ∀ q, ∃ a, sinf (F.fin q) = F.fin a) :
    apply_controls tanf cosf sinf (F.fin 0) (F.fin 0) (F.fin 0) c =
      { c with steering_angle := F.fin 0 } := by
  obtain ⟨ca, hca⟩ := hcos hd
  obtain ⟨sa, hsa⟩ := hsin hd
  have hzm : F.fin 0 * F.fin msa = F.fin 0 := by rw [F.fin_mul_fin, zero_mul]
  have hforce : F.fin 0 * F.fin 500 - F.fin 0 * F.fin 300 = F.fin 0 := by
    rw [F.fin_mul_fin, F.fin_mul_fin, F.fin_sub_fin]
    norm_num
  have hacc : F.fin 0 / F.fin m = F.fin 0 := by rw [F.fin_div_fin _ _ hm0, zero_div]
  have hspd : F.fin 0 + F.fin 0 = F.fin 0 := by rw [F.fin_add_fin, add_zero]
  have hvx : F.fin 0 * F.fin ca = F.fin 0 := by rw [F.fin_mul_fin, zero_mul]
  have hvy : F.fin 0 * F.fin sa = F.fin 0 := by rw [F.fin_mul_fin, zero_mul]
  have hturn : F.fin 0 / (F.fin w / tanf (F.fin 0)) = F.fin 0 := by
    rw [htan]
    rcases hw0.lt_or_lt with h | h
    · rw [F.fin_div_fin_zero_neg w h, F.fin_div_ninf]
    · rw [F.fin_div_fin_zero_pos w h, F.fin_div_pinf]
  simp only [apply_controls, apply_steering, hm, hw, hmsa, hhd, hsp, hv, hzm, hforce,
    hacc, hspd, hca, hsa, hvx, hvy, hturn, F.add_fin_zero]

/-- C7: for every car at rest (speed 0, velocity (0,0); with finite nonzero
mass and wheelbase, finite max steering angle and finite heading) and every
N, applying `apply_controls(0, 0, 0)` N times leaves the car's position,
velocity and heading unchanged. -/
theorem C7_zero_controls_fixed (tanf cosf sinf : F → F) (m w msa hd : ℚ)
    (hm0 : m ≠ 0) (hw0 : w ≠ 0)
    (htan : tanf (F.fin 0) = F.fin 0)
    (hcos : ∀ q, ∃ a, cosf (F.fin q) = F.fin a)
    (hsin : ∀ q, ∃ a, sinf (F.fin q) = F.fin a) (n : ℕ) :
    ∀ c : CarF, c.mass = F.fin m → c.wheel_base = F.fin w →
      c.max_steering_angle = F.fin msa → c.heading = F.fin hd →
      c.speed = F.fin 0 → c.velocity = (F.fin 0, F.fin 0) →
      (iterate_controls tanf cosf sinf (F.fin 0) (F.fin 0) (F.fin 0) n c).position =
          c.position ∧
      (iterate_controls tanf cosf sinf (F.fin 0) (F.fin 0) (F.fin 0) n c).velocity =
          c.velocity ∧
      (iterate_controls tanf cosf sinf (F.fin 0) (F.fin 0) (F.fin 0) n c).heading =
          c.heading := by
  induction n with
  | zero => intro c _ _ _ _ _ _; exact ⟨rfl, rfl, rfl⟩
  | succ k ih =>
    intro c hm hw hmsa hhd hsp hv
    have hstep := apply_controls_rest_step tanf cosf sinf c m w msa hd hm hm0 hw hw0 hmsa
      hhd hsp hv htan hcos hsin
    simp only [iterate_controls]
    rw [hstep]
    obtain ⟨hp, hv', hh⟩ := ih { c with steering_angle := F.fin 0 } hm hw hmsa hhd hsp hv
    exact ⟨hp, hv', hh⟩

/-- Witness for C7: three zero-input ticks on a concrete resting car change
none of position, velocity, heading. -/
theorem C7_witness :
    (iterate_controls (fun _ => F.fin 0) (fun _ => F.fin 1) (fun _ => F.fin 0)
        (F.fin 0) (F.fin 0) (F.fin 0) 3
        ⟨F.fin 1000, F.fin 1, F.fin (5/2), F.fin (1/2), (F.fin 0, F.fin 0),
          (F.fin 0, F.fin 0), F.fin 0, F.fin 0, F.fin 0⟩).position = (F.fin 0, F.fin 0) ∧
    (iterate_controls (fun _ => F.fin 0) (fun _ => F.fin 1) (fun _ => F.fin 0)
        (F.fin 0) (F.fin 0) (F.fin 0) 3
        ⟨F.fin 1000, F.fin 1, F.fin (5/2), F.fin (1/2), (F.fin 0, F.fin 0),
          (F.fin 0, F.fin 0), F.fin 0, F.fin 0, F.fin 0⟩).velocity = (F.fin 0, F.fin 0) ∧
    (iterate_controls (fun _ => F.fin 0) (fun _ => F.fin 1) (fun _ => F.fin 0)
        (F.fin 0) (F.fin 0) (F.fin 0) 3
        ⟨F.fin 1000, F.fin 1, F.fin (5/2), F.fin (1/2), (F.fin 0, F.fin 0),
          (F.fin 0, F.fin 0), F.fin 0, F.fin 0, F.fin 0⟩).heading = F.fin 0 :=
  C7_zero_controls_fixed (fun _ => F.fin 0) (fun _ => F.fin 1) (fun _ => F.fin 0)
    1000 (5/2) (1/2) 0 (by norm_num) (by norm_num) rfl (fun q => ⟨1, rfl⟩)
    (fun q => ⟨0, rfl⟩) 3 _ rfl rfl rfl rfl rfl rfl

end CarSim
